import Mathlib

/-!
Shallow embedding of `app.py` (AI Productivity Brain).

Times of day and datetimes are modelled as natural numbers of minutes since
midnight of the plan date; a cursor that runs past midnight simply exceeds
1440, exactly as a Python `datetime` rolls into the next day.  The code's
`strftime("%H:%M")` is modelled by `hhmm`, and `t.time()` (the time-of-day of
a datetime) by `· % 1440`.  The remote HuggingFace call and the JSON decoding
of its output are modelled by explicit parameters (`RemoteEnv`, decode
functions), since their outcomes are external input to the program.
-/

namespace App

/-- A task record produced by `parse_tasks` (app.py line 23):
`{"task": task, "est_min": est, "due": due, "context": ctx}`.
`est` is `int(parts[1])` guarded by `parts[1].isdigit()`, hence a
nonnegative integer or `None`. -/
structure Task where
  task : String
  est_min : Option Nat
  due : Option String
  context : String
deriving DecidableEq, Repr

/-- Python `str.strip()` on the character list of a string: drop whitespace
from both ends. -/
def pyStrip (l : List Char) : List Char :=
  ((l.dropWhile Char.isWhitespace).reverse.dropWhile Char.isWhitespace).reverse

/-- Python `s.split(sep)` for a one-character separator, on character
lists: an empty input yields one empty field, and each occurrence of the
separator opens a new field. -/
def splitOnChar (c : Char) : List Char → List (List Char)
  | [] => [[]]
  | x :: xs =>
    let r := splitOnChar c xs
    if x = c then [] :: r
    else (x :: r.headD []) :: r.tail

/-- Python `int(s) if s.isdigit() else None` for ASCII strings: defined
exactly when the character list is nonempty and all digits. -/
def digits? (l : List Char) : Option Nat :=
  if l ≠ [] ∧ l.all Char.isDigit then
    some (l.foldl (fun n c => n * 10 + (c.toNat - '0'.toNat)) 0)
  else none

/-- One line of `parse_tasks` (app.py lines 14-23): strip the line, skip it
when empty, split on `"|"`, strip the parts, and build the task record.
`parts[1].isdigit()` followed by `int(parts[1])` is `digits?`. -/
def parseLine (line : String) : Option Task :=
  let l := pyStrip line.toList
  if l = [] then none
  else
    let parts := (splitOnChar '|' l).map (fun p => (pyStrip p).asString)
    let task := parts.headD ""
    let est := match parts[1]? with
      | some p => digits? p.toList
      | none => none
    let due := match parts[2]? with
      | some p => if p = "" then none else some p
      | none => none
    let ctx := (parts[3]?).getD ""
    some ⟨task, est, due, ctx⟩

/-- `parse_tasks` (app.py lines 12-24): split the raw text into lines and
parse each nonempty one, in order. -/
def parse_tasks (raw_text : String) : List Task :=
  ((splitOnChar '\n' raw_text.toList).map List.asString).filterMap parseLine

/-- `tasks_to_lines` (app.py lines 26-34): serialize each task back to a
pipe-delimited line, emitting each optional field only when it is truthy in
Python's sense (`est_min` nonzero, `due` and `context` nonempty). -/
def tasks_to_lines (tasks : List Task) : String :=
  String.intercalate "\n" (tasks.map fun t =>
    let parts := [t.task]
    let parts := parts ++ (match t.est_min with
      | some n => if n ≠ 0 then [toString n] else []
      | none => [])
    let parts := parts ++ (match t.due with
      | some d => if d ≠ "" then [d] else []
      | none => [])
    let parts := parts ++ (if t.context ≠ "" then [t.context] else [])
    String.intercalate " | " parts)

/-- The idiom `t.get("est_min") or 30` (app.py lines 99 and 133): `None` and
the falsy integer `0` are both replaced by the default 30. -/
def estOr30 : Option Nat → Nat
  | none => 30
  | some 0 => 30
  | some n => n

/-- What the greedy fallback scheduler reads from each element of
`prioritized` (app.py lines 132-135): `t["task"]`, `t.get("est_min")`,
`t.get("reason","")`. -/
structure PlanTask where
  task : String
  est_min : Option Nat
  reason : Option String
deriving DecidableEq, Repr

/-- A schedule block (app.py line 135), with `start` and `end` kept as the
underlying datetimes in minutes since midnight of the plan date; the code
stores `strftime("%H:%M")` of these, modelled separately by `hhmm`. -/
structure Block where
  start : Nat
  end_ : Nat
  task : String
  notes : String
deriving DecidableEq, Repr

/-- Two-digit decimal rendering used by `%H` and `%M`. -/
def pad2 (n : Nat) : String :=
  if n < 10 then "0" ++ toString n else toString n

/-- `strftime("%H:%M")` of a datetime given as minutes since midnight of the
plan date: the clock wraps every 1440 minutes. -/
def hhmm (m : Nat) : String :=
  pad2 ((m % 1440) / 60) ++ ":" ++ pad2 (m % 60)

/-- The loop of the greedy fallback scheduler (app.py lines 130-138), with
`dayEnd` the work-day end and the cursor in minutes since midnight of the
plan date.  Each iteration emits a block `[cursor, cursor + est]`, advances
the cursor by the 10-minute buffer, and stops (after emitting) once the new
cursor's time-of-day (`% 1440`, i.e. `start_dt.time()`) strictly exceeds
`dayEnd` (`> day_end.time()`). -/
def greedyPack (dayEnd : Nat) : List PlanTask → Nat → List Block
  | [], _ => []
  | t :: ts, cursor =>
    let est := estOr30 t.est_min
    let endDt := cursor + est
    let b : Block := ⟨cursor, endDt, t.task, t.reason.getD ""⟩
    let next := endDt + 10
    if next % 1440 > dayEnd then [b]
    else b :: greedyPack dayEnd ts next

/-- A daily plan `{"date": ..., "schedule": [...]}` (app.py line 139). -/
structure Plan where
  date : String
  schedule : List Block
deriving DecidableEq, Repr

/-- The exception path of `ai_daily_plan` (app.py lines 128-139): the greedy
fallback schedule starting at the work-day start. -/
def dailyPlanFallback (prioritized : List PlanTask) (date_str : String)
    (dayStart dayEnd : Nat) : Plan :=
  ⟨date_str, greedyPack dayEnd prioritized dayStart⟩

/-- An entry of the list built by the fallback of `ai_prioritize`
(app.py lines 97-105). -/
structure PrioTask where
  task : String
  est_min : Nat
  due : Option String
  priority_score : Int
  quadrant : String
  suggested_time : Option String
  reason : String
deriving DecidableEq, Repr

/-- The fallback heuristic of `ai_prioritize` (app.py lines 95-106):
descending priority scores by input order (floored at 10), `est_min or 30`,
first two tasks in the "Do now" quadrant. -/
def fallbackPrioritize (tasks : List Task) : List PrioTask :=
  tasks.enum.map fun p =>
    { task := p.2.task
      est_min := estOr30 p.2.est_min
      due := p.2.due
      priority_score := max (100 - (p.1 : Int) * 10) 10
      quadrant := if p.1 < 2 then "Do now" else "Schedule"
      suggested_time := none
      reason := "Fallback: default priority" }

/-- The shape of a decoded HuggingFace response body (app.py lines 53-61):
a list whose first element carries `generated_text`, a dict carrying
`generated_text`, or anything else (stringified by `json.dumps`). -/
inductive BodyShape where
  | listWithGenerated (text : String)
  | dictWithGenerated (text : String)
  | other (stringified : String)
deriving DecidableEq, Repr

/-- The external world of `call_hf_model`: the secrets store (`HF_TOKEN`),
the HTTP outcome (`none` models `requests.post` raising, e.g. a timeout;
otherwise status code and body), and the decoding of a body by
`resp.json()` plus the shape extraction (`none` models that step raising). -/
structure RemoteEnv where
  hfToken : Option String
  http : Option (Nat × String)
  decodeBody : String → Option BodyShape

/-- `call_hf_model` (app.py lines 37-61): raises (`.error`) when the token is
missing, the request raises, the status is non-200 or the body does not
decode; otherwise returns the extracted text. -/
def call_hf_model (env : RemoteEnv) : Except String String :=
  match env.hfToken with
  | none => .error "HF_TOKEN not found in Streamlit secrets. Add it in app settings."
  | some _ =>
    match env.http with
    | none => .error "request raised"
    | some st =>
      if st.1 ≠ 200 then .error ("HuggingFace API error " ++ toString st.1 ++ ": " ++ st.2)
      else
        match env.decodeBody st.2 with
        | none => .error "response body not decodable"
        | some (.listWithGenerated t) => .ok t
        | some (.dictWithGenerated t) => .ok t
        | some (.other s) => .ok s

/-- First index of character `c` in `s`, Python `s.find(c)` with `none`
for -1. -/
def strFind? (s : String) (c : Char) : Option Nat :=
  s.toList.indexOf? c

/-- Last index of character `c` in `s`, Python `s.rfind(c)` with `none`
for -1. -/
def strRFind? (s : String) (c : Char) : Option Nat :=
  match s.toList.reverse.indexOf? c with
  | some i => some (s.toList.length - 1 - i)
  | none => none

/-- Python slice `s[a:b]`. -/
def strSlice (s : String) (a b : Nat) : String :=
  (((s.toList).drop a).take (b - a)).asString

/-- The substring `ai_prioritize` feeds to `json.loads` (app.py lines
87-92): the span from the first `[` to the last `]` when both occur,
otherwise the whole output. -/
def prioCandidate (out : String) : String :=
  match strFind? out '[', strRFind? out ']' with
  | some a, some b => strSlice out a (b + 1)
  | _, _ => out

/-- The substring `ai_daily_plan` feeds to `json.loads` (app.py lines
122-127): the span from the first `{` to the last `}` when both occur,
otherwise the whole output. -/
def planCandidate (out : String) : String :=
  match strFind? out '\x7b', strRFind? out '\x7d' with
  | some a, some b => strSlice out a (b + 1)
  | _, _ => out

/-- `ai_prioritize` (app.py lines 64-106).  `jd` models `json.loads` typed at
the expected output (`none` models it raising); any failure of the remote
call or of decoding lands in the fallback heuristic.  The model is a total
function: every input yields a value, no exception escapes. -/
def ai_prioritize (env : RemoteEnv) (jd : String → Option (List PrioTask))
    (tasks : List Task) : List PrioTask :=
  match call_hf_model env with
  | .error _ => fallbackPrioritize tasks
  | .ok out =>
    match jd (prioCandidate out) with
    | some r => r
    | none => fallbackPrioritize tasks

/-- `ai_daily_plan` (app.py lines 108-139).  `jd` models `json.loads` typed
at the expected plan shape (`none` models it raising); any failure of the
remote call or of decoding lands in the greedy fallback schedule.  The model
is a total function: every input yields a value, no exception escapes. -/
def ai_daily_plan (env : RemoteEnv) (jd : String → Option Plan)
    (prioritized : List PlanTask) (date_str : String)
    (dayStart dayEnd : Nat) : Plan :=
  match call_hf_model env with
  | .error _ => dailyPlanFallback prioritized date_str dayStart dayEnd
  | .ok out =>
    match jd (planCandidate out) with
    | some p => p
    | none => dailyPlanFallback prioritized date_str dayStart dayEnd

/-- Python `l.strip(chars)`: drop characters of `cs` from both ends. -/
def stripChars (cs : List Char) (s : String) : String :=
  (((s.toList.dropWhile (· ∈ cs)).reverse.dropWhile (· ∈ cs)).reverse).asString

/-- The character set `"-•0123456789. "` stripped from nudge lines
(app.py line 147). -/
def nudgeStripSet : List Char :=
  ['-', '•', '0', '1', '2', '3', '4', '5', '6', '7', '8', '9', '.', ' ']

/-- The cleaned lines of a nudge output (app.py line 147): keep lines that
are nonempty after stripping whitespace, then strip the bullet characters. -/
def nudgeLines (out : String) : List String :=
  (((splitOnChar '\n' out.toList).filter (fun l => pyStrip l ≠ [])).map
    (fun l => stripChars nudgeStripSet l.asString))

/-- The three fixed motivational strings of the `ai_nudges` fallback
(app.py line 152). -/
def fixedNudges : List String :=
  ["Keep going — take one focused step now.",
   "Small wins compound into big gains.",
   "Focus and finish the most impactful task first."]

/-- `ai_nudges` (app.py lines 141-152): on success, the first three cleaned
lines when there are at least three, else the raw output as a singleton; on
any exception, the three fixed strings. -/
def ai_nudges (env : RemoteEnv) : List String :=
  match call_hf_model env with
  | .error _ => fixedNudges
  | .ok out =>
    let lines := nudgeLines out
    if lines.length ≥ 3 then lines.take 3 else [out]

/-! Concrete inputs used by witnesses and counterexamples. -/

/-- Two plan tasks: one with an explicit estimate, one without. -/
def wTasks : List PlanTask := [⟨"a", some 60, none⟩, ⟨"b", none, some "r"⟩]

/-- Five 150-minute tasks, the drop-point example of the spec. -/
def fiveTasks : List PlanTask :=
  [⟨"t1", some 150, none⟩, ⟨"t2", some 150, none⟩, ⟨"t3", some 150, none⟩,
   ⟨"t4", some 150, none⟩, ⟨"t5", some 150, none⟩]

/-- A sample parsed task list. -/
def demoTasks : List Task := [⟨"Fix bug", some 60, some "2025-11-23", "urgent"⟩]

/-- A decode that always fails (models `json.loads` raising). -/
def jdNoneP : String → Option (List PrioTask) := fun _ => none

/-- A plan decode that always fails (models `json.loads` raising). -/
def jdNoneD : String → Option Plan := fun _ => none

/-- An environment whose HTTP request raises (e.g. a timeout). -/
def envReqFail : RemoteEnv := ⟨some "tok", none, fun _ => none⟩

/-- An environment with no `HF_TOKEN` in the secrets store, everything else
healthy. -/
def envNoToken : RemoteEnv := ⟨none, some (200, "body"), fun _ => some (.other "x")⟩

/-- A healthy environment whose model output is four lines. -/
def envOkNudges : RemoteEnv :=
  ⟨some "tok", some (200, "body"), fun _ => some (.other "x\ny\nz\nw")⟩

/-! Lemmas about the greedy fallback scheduler. -/

/-- Unfolding of one step of `greedyPack`. -/
theorem greedyPack_cons (de : Nat) (t : PlanTask) (ts : List PlanTask) (c : Nat) :
    greedyPack de (t :: ts) c =
      if (c + estOr30 t.est_min + 10) % 1440 > de
      then [⟨c, c + estOr30 t.est_min, t.task, t.reason.getD ""⟩]
      else ⟨c, c + estOr30 t.est_min, t.task, t.reason.getD ""⟩ ::
        greedyPack de ts (c + estOr30 t.est_min + 10) := rfl

/-- The substitute estimate is always positive. -/
theorem estOr30_pos (o : Option Nat) : 0 < estOr30 o := by
  match o with
  | none => simp [estOr30]
  | some 0 => simp [estOr30]
  | some (n + 1) => simp [estOr30]

/-- The schedule never has more blocks than there are tasks. -/
theorem greedyPack_length (de : Nat) (ts : List PlanTask) (c : Nat) :
    (greedyPack de ts c).length ≤ ts.length := by
  induction ts generalizing c with
  | nil => simp [greedyPack]
  | cons t ts ih =>
    rw [greedyPack_cons]
    split
    · simp
    · simpa using ih _

/-- The first emitted block starts at the initial cursor. -/
theorem greedyPack_first_start (de : Nat) (ts : List PlanTask) (c : Nat) (b : Block)
    (h : (greedyPack de ts c)[0]? = some b) : b.start = c := by
  cases ts with
  | nil => simp [greedyPack] at h
  | cons t ts =>
    rw [greedyPack_cons] at h
    split at h <;>
      (simp only [List.getElem?_cons_zero, Option.some.injEq] at h; subst h; rfl)

/-- Each block ends exactly its task's substitute estimate after it starts. -/
theorem greedyPack_block_end (de : Nat) (ts : List PlanTask) (c i : Nat) (b : Block)
    (t : PlanTask) (h : (greedyPack de ts c)[i]? = some b) (ht : ts[i]? = some t) :
    b.end_ = b.start + estOr30 t.est_min := by
  induction ts generalizing c i with
  | nil => simp [greedyPack] at h
  | cons hd tl ih =>
    rw [greedyPack_cons] at h
    cases i with
    | zero =>
      simp only [List.getElem?_cons_zero, Option.some.injEq] at ht
      subst ht
      split at h <;>
        (simp only [List.getElem?_cons_zero, Option.some.injEq] at h; subst h; rfl)
    | succ n =>
      simp only [List.getElem?_cons_succ] at ht
      split at h
      · simp at h
      · simp only [List.getElem?_cons_succ] at h
        exact ih _ _ h ht

/-- Consecutive blocks are separated by exactly the 10-minute buffer. -/
theorem greedyPack_step (de : Nat) (ts : List PlanTask) (c i : Nat) (b b' : Block)
    (h : (greedyPack de ts c)[i]? = some b)
    (h' : (greedyPack de ts c)[i + 1]? = some b') : b'.start = b.end_ + 10 := by
  induction ts generalizing c i with
  | nil => simp [greedyPack] at h
  | cons hd tl ih =>
    rw [greedyPack_cons] at h h'
    by_cases hc : (c + estOr30 hd.est_min + 10) % 1440 > de
    · rw [if_pos hc] at h h'
      cases i <;> simp at h'
    · rw [if_neg hc] at h h'
      cases i with
      | zero =>
        simp only [List.getElem?_cons_zero, Option.some.injEq] at h
        simp only [List.getElem?_cons_succ] at h'
        subst h
        exact greedyPack_first_start de tl _ b' h'
      | succ n =>
        simp only [List.getElem?_cons_succ] at h h'
        exact ih _ _ h h'

/-- Every emitted block has positive length. -/
theorem greedyPack_block_pos (de : Nat) (ts : List PlanTask) (c i : Nat) (b : Block)
    (h : (greedyPack de ts c)[i]? = some b) : b.start < b.end_ := by
  induction ts generalizing c i with
  | nil => simp [greedyPack] at h
  | cons hd tl ih =>
    rw [greedyPack_cons] at h
    have hp := estOr30_pos hd.est_min
    cases i with
    | zero =>
      split at h <;>
        (simp only [List.getElem?_cons_zero, Option.some.injEq] at h; subst h;
         show c < c + estOr30 hd.est_min; omega)
    | succ n =>
      split at h
      · simp at h
      · simp only [List.getElem?_cons_succ] at h
        exact ih _ _ h

/-- Claim C1: for every task list and work-day window, the fallback schedule
of `ai_daily_plan` has at most as many blocks as tasks; the first block
starts at the work-day start; block `i` ends at its start plus the
substitute estimate of task `i` (30 when `est_min` is unset); each next
block starts exactly 10 minutes after the previous one ends; and an empty
task list yields an empty schedule. -/
theorem fallback_scheduler_chain (tasks : List PlanTask) (date_str : String)
    (dayStart dayEnd : Nat) :
    ((dailyPlanFallback tasks date_str dayStart dayEnd).schedule).length ≤ tasks.length ∧
    (∀ b : Block,
      ((dailyPlanFallback tasks date_str dayStart dayEnd).schedule)[0]? = some b →
      b.start = dayStart) ∧
    (∀ (i : Nat) (b : Block) (t : PlanTask),
      ((dailyPlanFallback tasks date_str dayStart dayEnd).schedule)[i]? = some b →
      tasks[i]? = some t → b.end_ = b.start + estOr30 t.est_min) ∧
    (∀ (i : Nat) (b b' : Block),
      ((dailyPlanFallback tasks date_str dayStart dayEnd).schedule)[i]? = some b →
      ((dailyPlanFallback tasks date_str dayStart dayEnd).schedule)[i + 1]? = some b' →
      b'.start = b.end_ + 10) ∧
    (tasks = [] → (dailyPlanFallback tasks date_str dayStart dayEnd).schedule = []) :=
  ⟨greedyPack_length dayEnd tasks dayStart,
   fun b h => greedyPack_first_start dayEnd tasks dayStart b h,
   fun i b t h ht => greedyPack_block_end dayEnd tasks dayStart i b t h ht,
   fun i b b' h h' => greedyPack_step dayEnd tasks dayStart i b b' h h',
   fun h => by subst h; rfl⟩

/-- Witness for C1 at two concrete tasks, a 09:00 start and a 17:00 end. -/
theorem fallback_scheduler_chain_witness :
    ((dailyPlanFallback wTasks "2025-11-23" 540 1020).schedule).length ≤ wTasks.length ∧
    (Block.mk 540 600 "a" "").start = 540 ∧
    (Block.mk 540 600 "a" "").end_ = (Block.mk 540 600 "a" "").start + estOr30 (some 60) ∧
    (Block.mk 610 640 "b" "r").start = (Block.mk 540 600 "a" "").end_ + 10 := by
  obtain ⟨h1, h2, h3, h4, -⟩ := fallback_scheduler_chain wTasks "2025-11-23" 540 1020
  exact ⟨h1, h2 _ rfl, h3 0 _ ⟨"a", some 60, none⟩ rfl rfl, h4 0 _ _ rfl rfl⟩

/-- Claim C4: a single 90-minute task with day start 09:00 yields one block
09:00-10:30 in full, for every work-day end time, because the boundary check
only runs after the cursor has advanced for the next iteration. -/
theorem single_long_task_emitted_in_full (dayEnd : Nat) :
    (dailyPlanFallback [⟨"solo", some 90, none⟩] "2025-11-23" 540 dayEnd).schedule =
      [⟨540, 630, "solo", ""⟩] ∧
    hhmm 540 = "09:00" ∧ hhmm 630 = "10:30" := by
  refine ⟨?_, rfl, rfl⟩
  show greedyPack dayEnd [⟨"solo", some 90, none⟩] 540 = _
  rw [greedyPack_cons]
  split <;> rfl

/-- Counterexample to claim C5 as stated: with a 09:00-17:00 day and five
150-minute tasks, the schedule has four blocks, not three — the fourth task
is emitted (starting exactly at 17:00), so it is not dropped. -/
theorem five_tasks_fourth_not_dropped :
    (dailyPlanFallback fiveTasks "2025-11-23" 540 1020).schedule.length = 4 ∧
    ((dailyPlanFallback fiveTasks "2025-11-23" 540 1020).schedule)[3]? =
      some ⟨1020, 1170, "t4", ""⟩ ∧
    ¬ (dailyPlanFallback fiveTasks "2025-11-23" 540 1020).schedule.length ≤ 3 := by
  refine ⟨rfl, rfl, ?_⟩
  have h : (dailyPlanFallback fiveTasks "2025-11-23" 540 1020).schedule.length = 4 := rfl
  omega

/-- Claim C5 (amended): with a 09:00-17:00 day, a 10-minute buffer and five
150-minute tasks, blocks are emitted while the advanced cursor's time-of-day
does not strictly exceed 17:00; the first four tasks are emitted — the
fourth starting exactly at 17:00, since the boundary check is strict — and
only the fifth task is silently dropped. -/
theorem five_tasks_drop_point :
    (dailyPlanFallback fiveTasks "2025-11-23" 540 1020).schedule =
      [⟨540, 690, "t1", ""⟩, ⟨700, 850, "t2", ""⟩,
       ⟨860, 1010, "t3", ""⟩, ⟨1020, 1170, "t4", ""⟩] ∧
    hhmm 1020 = "17:00" ∧ hhmm 1170 = "19:30" :=
  ⟨rfl, rfl, rfl⟩

/-- Claim C6: every fallback schedule is non-overlapping and strictly
increasing: each block ends strictly after it starts, and each next block
starts exactly buffer-many minutes strictly after the previous block ends. -/
theorem schedule_strictly_increasing (tasks : List PlanTask) (date_str : String)
    (ds de : Nat) :
    (∀ (i : Nat) (b : Block),
      ((dailyPlanFallback tasks date_str ds de).schedule)[i]? = some b →
      b.start < b.end_) ∧
    (∀ (i : Nat) (b b' : Block),
      ((dailyPlanFallback tasks date_str ds de).schedule)[i]? = some b →
      ((dailyPlanFallback tasks date_str ds de).schedule)[i + 1]? = some b' →
      b'.start = b.end_ + 10 ∧ b.end_ < b'.start ∧ b.start < b'.start) := by
  refine ⟨fun i b h => greedyPack_block_pos de tasks ds i b h, fun i b b' h h' => ?_⟩
  have hstep := greedyPack_step de tasks ds i b b' h h'
  have hpos := greedyPack_block_pos de tasks ds i b h
  exact ⟨hstep, by omega, by omega⟩

/-- Witness for C6 at two concrete tasks, a 09:00 start and a 17:00 end. -/
theorem schedule_strictly_increasing_witness :
    (Block.mk 540 600 "a" "").start < (Block.mk 540 600 "a" "").end_ ∧
    (Block.mk 610 640 "b" "r").start = (Block.mk 540 600 "a" "").end_ + 10 ∧
    (Block.mk 540 600 "a" "").end_ < (Block.mk 610 640 "b" "r").start ∧
    (Block.mk 540 600 "a" "").start < (Block.mk 610 640 "b" "r").start := by
  obtain ⟨hpos, hstep⟩ := schedule_strictly_increasing wTasks "2025-11-23" 540 1020
  obtain ⟨h1, h2, h3⟩ := hstep 0 _ _ rfl rfl
  exact ⟨hpos 0 _ rfl, h1, h2, h3⟩

/-- Claim C7: parsing the line `Fix bug | 60 | 2025-11-23 | urgent` yields
exactly one record with the four expected fields, and serializing that
record reproduces the same pipe-delimited line. -/
theorem parse_serialize_round_trip :
    parse_tasks "Fix bug | 60 | 2025-11-23 | urgent" =
      [⟨"Fix bug", some 60, some "2025-11-23", "urgent"⟩] ∧
    tasks_to_lines [⟨"Fix bug", some 60, some "2025-11-23", "urgent"⟩] =
      "Fix bug | 60 | 2025-11-23 | urgent" :=
  ⟨rfl, rfl⟩

/-- Claim C2: whenever the remote call raises (request failure or timeout,
non-200 status, undecodable body) or the model output does not decode as
the expected JSON, `ai_prioritize` and `ai_daily_plan` return the
deterministic local fallback of their inputs; both models are total
functions, so no exception escapes to the caller. -/
theorem remote_failure_yields_fallback (env : RemoteEnv)
    (jdP : String → Option (List PrioTask)) (jdD : String → Option Plan)
    (tasks : List Task) (prioritized : List PlanTask) (date_str : String)
    (ds de : Nat) :
    (∀ e : String, call_hf_model env = .error e →
      ai_prioritize env jdP tasks = fallbackPrioritize tasks ∧
      ai_daily_plan env jdD prioritized date_str ds de =
        dailyPlanFallback prioritized date_str ds de) ∧
    (∀ out : String, call_hf_model env = .ok out → jdP (prioCandidate out) = none →
      ai_prioritize env jdP tasks = fallbackPrioritize tasks) ∧
    (∀ out : String, call_hf_model env = .ok out → jdD (planCandidate out) = none →
      ai_daily_plan env jdD prioritized date_str ds de =
        dailyPlanFallback prioritized date_str ds de) ∧
    (env.http = none → ∃ e, call_hf_model env = .error e) ∧
    (∀ (s : Nat) (b : String), env.http = some (s, b) → s ≠ 200 →
      ∃ e, call_hf_model env = .error e) ∧
    (∀ (tok : String) (s : Nat) (b : String), env.hfToken = some tok →
      env.http = some (s, b) → env.decodeBody b = none →
      ∃ e, call_hf_model env = .error e) := by
  obtain ⟨tok, http, dec⟩ := env
  refine ⟨?_, ?_, ?_, ?_, ?_, ?_⟩
  · intro e he
    constructor <;> simp [ai_prioritize, ai_daily_plan, he]
  · intro out ho hj
    simp [ai_prioritize, ho, hj]
  · intro out ho hj
    simp [ai_daily_plan, ho, hj]
  · intro hh
    have hh' : http = none := hh
    subst hh'
    cases tok <;> exact ⟨_, rfl⟩
  · intro s b hh hs
    have hh' : http = some (s, b) := hh
    subst hh'
    cases tok with
    | none => exact ⟨_, rfl⟩
    | some t => exact ⟨_, by simp only [call_hf_model]; rw [if_pos hs]⟩
  · intro t s b htok hh hd
    have htok' : tok = some t := htok
    have hh' : http = some (s, b) := hh
    have hd' : dec b = none := hd
    subst htok'; subst hh'
    by_cases h200 : s = 200
    · subst h200
      refine ⟨"response body not decodable", ?_⟩
      simp only [call_hf_model]
      rw [if_neg (by simp)]
      simp [hd']
    · exact ⟨_, by simp only [call_hf_model]; rw [if_pos h200]⟩

/-- Witness for C2: a raising request and always-failing decodes land in
the deterministic fallbacks. -/
theorem remote_failure_yields_fallback_witness :
    ai_prioritize envReqFail jdNoneP demoTasks = fallbackPrioritize demoTasks ∧
    ai_daily_plan envReqFail jdNoneD wTasks "2025-11-23" 540 1020 =
      dailyPlanFallback wTasks "2025-11-23" 540 1020 := by
  have h := remote_failure_yields_fallback envReqFail jdNoneP jdNoneD demoTasks wTasks
    "2025-11-23" 540 1020
  exact h.1 "request raised" rfl

/-- Counterexample to claim C3 as stated: with `HF_TOKEN` missing from the
secrets store, `call_hf_model` raises, but `ai_prioritize` catches the
exception like any other failure and produces the deterministic (nonempty)
fallback — so a substitute result is produced and the missing-credential
case is not fatal. -/
theorem missing_token_not_fatal :
    call_hf_model envNoToken =
      .error "HF_TOKEN not found in Streamlit secrets. Add it in app settings." ∧
    ai_prioritize envNoToken jdNoneP demoTasks = fallbackPrioritize demoTasks ∧
    fallbackPrioritize demoTasks ≠ [] := by
  refine ⟨rfl, rfl, ?_⟩
  decide

/-- Claim C3 (amended): when `HF_TOKEN` is missing from the secrets store,
`call_hf_model` raises a `RuntimeError`, but every caller wraps the call in
a broad exception handler, so the missing-credential failure is converted
into the deterministic fallback result (and the fixed nudges) rather than
being fatal or reported distinctly. -/
theorem missing_token_caught_fallback (env : RemoteEnv) (h : env.hfToken = none)
    (jdP : String → Option (List PrioTask)) (jdD : String → Option Plan)
    (tasks : List Task) (prioritized : List PlanTask) (date_str : String)
    (ds de : Nat) :
    call_hf_model env =
      .error "HF_TOKEN not found in Streamlit secrets. Add it in app settings." ∧
    ai_prioritize env jdP tasks = fallbackPrioritize tasks ∧
    ai_daily_plan env jdD prioritized date_str ds de =
      dailyPlanFallback prioritized date_str ds de ∧
    ai_nudges env = fixedNudges := by
  obtain ⟨tok, http, dec⟩ := env
  have h' : tok = none := h
  subst h'
  exact ⟨rfl, rfl, rfl, rfl⟩

/-- Witness for the amended C3 at a concrete tokenless environment. -/
theorem missing_token_caught_fallback_witness :
    ai_daily_plan envNoToken jdNoneD wTasks "2025-11-23" 540 1020 =
      dailyPlanFallback wTasks "2025-11-23" 540 1020 ∧
    ai_nudges envNoToken = fixedNudges := by
  have h := missing_token_caught_fallback envNoToken rfl jdNoneP jdNoneD demoTasks
    wTasks "2025-11-23" 540 1020
  exact ⟨h.2.2.1, h.2.2.2⟩

/-- Counterexample to claim C8 as stated: the line `a | 0` parses with
`est_min` stored as `0`, which is neither absent nor a positive integer. -/
theorem est_zero_parsed :
    parse_tasks "a | 0" = [⟨"a", some 0, none, ""⟩] ∧
    ¬ ((some (0 : Nat) = none) ∨ 0 < (0 : Nat)) :=
  ⟨rfl, by decide⟩

/-- Claim C8 (amended): a parsed `est_min` is either absent or a nonnegative
integer — a digit-string second field may store `0` — and wherever the
estimate is consumed, an absent (or zero) value is replaced by the default
30, so the consumed estimate is always positive. -/
theorem est_min_default_and_positive (raw : String) (t : Task)
    (h : t ∈ parse_tasks raw) :
    0 < estOr30 t.est_min ∧
    ((t.est_min = none ∨ t.est_min = some 0) → estOr30 t.est_min = 30) := by
  refine ⟨estOr30_pos t.est_min, ?_⟩
  rintro (ht | ht) <;> rw [ht] <;> rfl

/-- Witness for the amended C8 at the parsed line `a | 0`. -/
theorem est_min_default_and_positive_witness :
    0 < estOr30 (some 0) ∧ estOr30 (some 0) = 30 := by
  have h := est_min_default_and_positive "a | 0" ⟨"a", some 0, none, ""⟩ (by decide)
  exact ⟨h.1, h.2 (Or.inr rfl)⟩

/-- Claim C9: the idiom `t.get("est_min") or 30` substitutes 30 for an
absent estimate and for the falsy stored value 0 (keeping any other value),
so the fallback prioritization always records a positive estimate and the
fallback scheduler never produces a zero-length block. -/
theorem falsy_est_treated_as_30 :
    estOr30 none = 30 ∧ estOr30 (some 0) = 30 ∧
    (∀ n : Nat, n ≠ 0 → estOr30 (some n) = n) ∧
    (∀ (tasks : List Task) (i : Nat) (p : PrioTask),
      (fallbackPrioritize tasks)[i]? = some p → 0 < p.est_min) ∧
    (∀ (tasks : List PlanTask) (date_str : String) (ds de i : Nat) (b : Block),
      ((dailyPlanFallback tasks date_str ds de).schedule)[i]? = some b →
      b.start < b.end_) := by
  refine ⟨rfl, rfl, ?_, ?_, ?_⟩
  · intro n hn
    cases n with
    | zero => exact absurd rfl hn
    | succ m => rfl
  · intro tasks i p hp
    simp only [fallbackPrioritize, List.getElem?_map] at hp
    obtain ⟨pair, -, hfp⟩ := Option.map_eq_some'.mp hp
    rw [← hfp]
    exact estOr30_pos pair.2.est_min
  · intro tasks date_str ds de i b hb
    exact greedyPack_block_pos de tasks ds i b hb

/-- Witness for C9 at concrete estimates, a concrete fallback
prioritization entry and a concrete fallback block. -/
theorem falsy_est_treated_as_30_witness :
    estOr30 (some 7) = 7 ∧
    0 < (PrioTask.mk "Fix bug" 60 (some "2025-11-23") 100 "Do now" none
      "Fallback: default priority").est_min ∧
    (Block.mk 540 600 "a" "").start < (Block.mk 540 600 "a" "").end_ := by
  obtain ⟨-, -, h3, h4, h5⟩ := falsy_est_treated_as_30
  exact ⟨h3 7 (by decide), h4 demoTasks 0 _ (by decide),
    h5 wTasks "2025-11-23" 540 1020 0 _ rfl⟩

/-- Claim C10: `ai_nudges` always returns a nonempty list of at most three
strings: the first three cleaned lines when the remote output has at least
three, the raw output as a singleton otherwise, and on any exception —
including a missing credential or remote failure — exactly the three fixed
motivational strings. -/
theorem ai_nudges_shape (env : RemoteEnv) :
    (ai_nudges env ≠ [] ∧ (ai_nudges env).length ≤ 3) ∧
    (∀ e : String, call_hf_model env = .error e → ai_nudges env = fixedNudges) ∧
    (∀ out : String, call_hf_model env = .ok out → 3 ≤ (nudgeLines out).length →
      ai_nudges env = (nudgeLines out).take 3) ∧
    (∀ out : String, call_hf_model env = .ok out → (nudgeLines out).length < 3 →
      ai_nudges env = [out]) ∧
    fixedNudges.length = 3 := by
  refine ⟨?_, ?_, ?_, ?_, rfl⟩
  · cases hc : call_hf_model env with
    | error e =>
      have h1 : ai_nudges env = fixedNudges := by simp [ai_nudges, hc]
      rw [h1]
      exact ⟨by simp [fixedNudges], by simp [fixedNudges]⟩
    | ok out =>
      by_cases h3 : 3 ≤ (nudgeLines out).length
      · have h1 : ai_nudges env = (nudgeLines out).take 3 := by
          simp [ai_nudges, hc, h3]
        rw [h1]
        have hlen : ((nudgeLines out).take 3).length = 3 := by
          rw [List.length_take]; omega
        constructor
        · intro hnil
          rw [hnil] at hlen
          simp at hlen
        · omega
      · have h1 : ai_nudges env = [out] := by
          simp [ai_nudges, hc, h3]
        rw [h1]
        exact ⟨by simp, by simp⟩
  · intro e he
    simp [ai_nudges, he]
  · intro out ho h3
    simp [ai_nudges, ho, h3]
  · intro out ho h3
    have h3' : ¬ 3 ≤ (nudgeLines out).length := by omega
    simp [ai_nudges, ho, h3']

/-- Witness for C10: the fixed nudges on a missing token, and the first
three cleaned lines of a four-line output. -/
theorem ai_nudges_shape_witness :
    ai_nudges envNoToken = fixedNudges ∧
    ai_nudges envOkNudges = ["x", "y", "z"] := by
  obtain ⟨-, h2, -, -, -⟩ := ai_nudges_shape envNoToken
  obtain ⟨-, -, h3, -, -⟩ := ai_nudges_shape envOkNudges
  refine ⟨h2 _ rfl, ?_⟩
  have h := h3 "x\ny\nz\nw" rfl (by decide)
  rw [h]
  rfl

end App
